import Mathlib

/-!
Verification of `reportlab_canvas_extension.py`: a shallow embedding of the
extended `Canvas` methods, with geometry over the reals and the anchored
drawing / font bookkeeping over the rationals.  Drawing side effects are
modelled as lists of emitted primitive operations; Python exceptions
(`UnboundLocalError`, `IndexError`, `ZeroDivisionError`) are modelled with
`Except String`.
-/

namespace RLCanvas

/-- Primitive drawing operations emitted by the real-valued geometry methods. -/
inductive DrawOp : Type
  | line (x1 y1 x2 y2 : ℝ)
  | setLineCap (cap : ℤ)
  | saveState
  | restoreState

/-- `math.radians`: degrees to radians. -/
noncomputable def degToRad (x : ℝ) : ℝ := x * (Real.pi / 180)

/-- `math.atan2`, following the C-library convention used by Python. -/
noncomputable def atan2 (y x : ℝ) : ℝ :=
  if 0 < x then Real.arctan (y / x)
  else if x < 0 then
    (if 0 ≤ y then Real.arctan (y / x) + Real.pi else Real.arctan (y / x) - Real.pi)
  else
    (if 0 < y then Real.pi / 2 else if y < 0 then -(Real.pi / 2) else 0)

/-- Python `int(...)` applied to a float: truncation toward zero. -/
noncomputable def pyInt (x : ℝ) : ℤ := if 0 ≤ x then ⌊x⌋ else ⌈x⌉

/-- `lineAngle`: draw from `(x1, y1)` to polar offset `(r, theta)`;
`theta` in degrees unless `radians`.  Returns the endpoint and emitted ops. -/
noncomputable def lineAngle (x1 y1 r theta : ℝ) (radians : Bool) :
    (ℝ × ℝ) × List DrawOp :=
  let theta := if radians then theta else degToRad theta
  let x2 := r * Real.cos theta + x1
  let y2 := r * Real.sin theta + y1
  ((x2, y2), [DrawOp.line x1 y1 x2 y2])

/-- `lineRelative`: draw from `(x1, y1)` to `(x1 + dx, y1 + dy)`. -/
noncomputable def lineRelative (x1 y1 dx dy : ℝ) : (ℝ × ℝ) × List DrawOp :=
  let x2 := x1 + dx
  let y2 := y1 + dy
  ((x2, y2), [DrawOp.line x1 y1 x2 y2])

/-- `arrow`: shaft from `(x1, y1)` to `(x2, y2)` plus two barbs at
`theta ± 150°` from the shaft direction `theta = atan2(dy, dx)`. -/
noncomputable def arrow (x1 y1 x2 y2 : ℝ) (arrowheadlength : Option ℝ) :
    List DrawOp :=
  let ahl := arrowheadlength.getD
    (0.083333 * Real.sqrt ((x2 - x1) * (x2 - x1) + (y2 - y1) * (y2 - y1)))
  let theta := atan2 (y2 - y1) (x2 - x1)
  [DrawOp.saveState, DrawOp.setLineCap 1, DrawOp.line x1 y1 x2 y2]
    ++ (lineAngle x2 y2 ahl (theta + degToRad 150) true).2
    ++ (lineAngle x2 y2 ahl (theta - degToRad 150) true).2
    ++ [DrawOp.restoreState]

/-- `arrowAngle`: arrow from `(x1, y1)` to polar offset `(r, theta)`. -/
noncomputable def arrowAngle (x1 y1 r theta : ℝ) (radians : Bool)
    (arrowheadlength : Option ℝ) : (ℝ × ℝ) × List DrawOp :=
  let theta := if radians then theta else degToRad theta
  let la := lineAngle x1 y1 r theta true
  let x2 := la.1.1
  let y2 := la.1.2
  let ahl := arrowheadlength.getD
    (0.083333 * Real.sqrt ((x2 - x1) * (x2 - x1) + (y2 - y1) * (y2 - y1)))
  ((x2, y2),
    [DrawOp.saveState, DrawOp.setLineCap 1] ++ la.2
      ++ (lineAngle x2 y2 ahl (theta + degToRad 150) true).2
      ++ (lineAngle x2 y2 ahl (theta - degToRad 150) true).2
      ++ [DrawOp.restoreState])

/-- `arrowPolar`: arrow between two polar points about `(x, y)`. -/
noncomputable def arrowPolar (x y r1 theta1 r2 theta2 : ℝ) (radians : Bool)
    (arrowheadlength : Option ℝ) : (ℝ × ℝ) × List DrawOp :=
  let theta1 := if radians then theta1 else degToRad theta1
  let theta2 := if radians then theta2 else degToRad theta2
  let x1 := r1 * Real.cos theta1 + x
  let y1 := r1 * Real.sin theta1 + y
  let x2 := r2 * Real.cos theta2 + x
  let y2 := r2 * Real.sin theta2 + y
  ((x2, y2), arrow x1 y1 x2 y2 arrowheadlength)

/-- `arrowPolarRelative`.  The source's `radians=False` branch executes
`theta2 = math.radians(theta2)` with no local `theta2` in scope, so Python
raises `UnboundLocalError` there; only the `radians=True` path completes. -/
noncomputable def arrowPolarRelative (x y r1 theta1 dr dtheta : ℝ)
    (radians : Bool) (arrowheadlength : Option ℝ) :
    Except String ((ℝ × ℝ) × List DrawOp) :=
  if radians then
    let x1 := r1 * Real.cos theta1 + x
    let y1 := r1 * Real.sin theta1 + y
    .ok (arrowAngle x1 y1 dr dtheta true arrowheadlength)
  else
    .error "UnboundLocalError: local variable theta2 referenced before assignment"

/-- `arrowRelative`: arrow from `(x1, y1)` to `(x1 + dx, y1 + dy)`. -/
noncomputable def arrowRelative (x1 y1 dx dy : ℝ) (arrowheadlength : Option ℝ) :
    (ℝ × ℝ) × List DrawOp :=
  let x2 := x1 + dx
  let y2 := y1 + dy
  ((x2, y2), arrow x1 y1 x2 y2 arrowheadlength)

/-- `lineAngleDashed`: dashed line to polar offset `(r, theta)`; the default
dash count is `int(abs(r) / 30) + 2`. -/
noncomputable def lineAngleDashed (x1 y1 r theta : ℝ) (radians : Bool)
    (num_dashes : Option ℤ) : (ℝ × ℝ) × List DrawOp :=
  let theta := if radians then theta else degToRad theta
  let n := num_dashes.getD (pyInt (|r| / 30) + 2)
  let dash_length := r / ((n * 2 - 1 : ℤ) : ℝ)
  let dash_base := dash_length * Real.cos theta
  let dash_height := dash_length * Real.sin theta
  ((((2 * n - 1 : ℤ) : ℝ) * dash_base + x1,
    ((2 * n - 1 : ℤ) : ℝ) * dash_height + y1),
   (List.range n.toNat).flatMap fun i =>
     (lineRelative (2 * i * dash_base + x1) (2 * i * dash_height + y1)
       dash_base dash_height).2)

/-- `lineDashed`: dashed line from `(x1, y1)` to `(x2, y2)`; the default dash
count is `int(length / 30) + 2` with `length` the euclidean distance. -/
noncomputable def lineDashed (x1 y1 x2 y2 : ℝ) (num_dashes : Option ℤ) :
    List DrawOp :=
  let n := num_dashes.getD
    (pyInt (Real.sqrt ((x2 - x1) * (x2 - x1) + (y2 - y1) * (y2 - y1)) / 30) + 2)
  let dash_base := (x2 - x1) / ((n * 2 - 1 : ℤ) : ℝ)
  let dash_height := (y2 - y1) / ((n * 2 - 1 : ℤ) : ℝ)
  (List.range n.toNat).flatMap fun i =>
    (lineRelative (2 * i * dash_base + x1) (2 * i * dash_height + y1)
      dash_base dash_height).2

/-- `linePolar`: line between two polar points about `(x, y)`. -/
noncomputable def linePolar (x y r1 theta1 r2 theta2 : ℝ) (radians : Bool) :
    (ℝ × ℝ) × List DrawOp :=
  let theta1 := if radians then theta1 else degToRad theta1
  let theta2 := if radians then theta2 else degToRad theta2
  let x1 := r1 * Real.cos theta1 + x
  let y1 := r1 * Real.sin theta1 + y
  let x2 := r2 * Real.cos theta2 + x
  let y2 := r2 * Real.sin theta2 + y
  ((x2, y2), [DrawOp.line x1 y1 x2 y2])

/-- `linePolarDashed`: dashed line between two polar points about `(x, y)`. -/
noncomputable def linePolarDashed (x y r1 theta1 r2 theta2 : ℝ) (radians : Bool)
    (num_dashes : Option ℤ) : (ℝ × ℝ) × List DrawOp :=
  let theta1 := if radians then theta1 else degToRad theta1
  let theta2 := if radians then theta2 else degToRad theta2
  let x1 := r1 * Real.cos theta1 + x
  let y1 := r1 * Real.sin theta1 + y
  let x2 := r2 * Real.cos theta2 + x
  let y2 := r2 * Real.sin theta2 + y
  ((x2, y2), lineDashed x1 y1 x2 y2 num_dashes)

/-- `linePolarRelative`: line from polar point `(r1, theta1)` about `(x, y)`
with polar delta `(dr, dtheta)`. -/
noncomputable def linePolarRelative (x y r1 theta1 dr dtheta : ℝ)
    (radians : Bool) : (ℝ × ℝ) × List DrawOp :=
  let theta1 := if radians then theta1 else degToRad theta1
  let dtheta := if radians then dtheta else degToRad dtheta
  let x1 := r1 * Real.cos theta1 + x
  let y1 := r1 * Real.sin theta1 + y
  lineAngle x1 y1 dr dtheta true

/-- `linePolarRelativeDashed`: dashed variant of `linePolarRelative`. -/
noncomputable def linePolarRelativeDashed (x y r1 theta1 dr dtheta : ℝ)
    (radians : Bool) (num_dashes : Option ℤ) : (ℝ × ℝ) × List DrawOp :=
  let theta1 := if radians then theta1 else degToRad theta1
  let dtheta := if radians then dtheta else degToRad dtheta
  let x1 := r1 * Real.cos theta1 + x
  let y1 := r1 * Real.sin theta1 + y
  lineAngleDashed x1 y1 dr dtheta true num_dashes

/-- `lineRelativeDashed`: dashed line from `(x1, y1)` to `(x1+dx, y1+dy)`. -/
noncomputable def lineRelativeDashed (x1 y1 dx dy : ℝ) (num_dashes : Option ℤ) :
    (ℝ × ℝ) × List DrawOp :=
  let x2 := x1 + dx
  let y2 := y1 + dy
  ((x2, y2), lineDashed x1 y1 x2 y2 num_dashes)

/-- Placed drawing operations emitted by the anchored methods (exact rational
coordinates). -/
inductive PlacedOp : Type
  | drawImage (x y w h : ℚ)
  | drawString (x y : ℚ) (text : String)
  | drawRightString (x y : ℚ) (text : String)
  | drawCentredString (x y : ℚ) (text : String)
  deriving DecidableEq

/-- Python `anchor[0]`: first character, or `IndexError` on the empty string. -/
def pyFirst (s : String) : Except String Char :=
  match s.data.head? with
  | none => .error "IndexError"
  | some c => .ok c

/-- Python `anchor[-1]`: last character, or `IndexError` on the empty string. -/
def pyLast (s : String) : Except String Char :=
  match s.data.getLast? with
  | none => .error "IndexError"
  | some c => .ok c

/-- Width/height resolution of `drawAnchoredImage` (source lines 222-228):
both `None` means intrinsic pixel size, exactly one `None` derives the other
by Python floor division `//`, division by a zero intrinsic dimension raises
`ZeroDivisionError`. -/
def resolveDims (img_width img_height : ℤ) :
    Option ℚ → Option ℚ → Except String (ℚ × ℚ)
  | none, none => .ok ((img_width : ℚ), (img_height : ℚ))
  | none, some height =>
      if img_height = 0 then .error "ZeroDivisionError"
      else .ok (((⌊height * (img_width : ℚ) / (img_height : ℚ)⌋ : ℤ) : ℚ), height)
  | some width, none =>
      if img_width = 0 then .error "ZeroDivisionError"
      else .ok (width, ((⌊width * (img_height : ℚ) / (img_width : ℚ)⌋ : ℤ) : ℚ))
  | some width, some height => .ok (width, height)

/-- `drawAnchoredImage`: the image of intrinsic pixel size
`(img_width, img_height)` is drawn with its origin offset from `(x, y)`
according to the anchor token; returns the intrinsic size, as the stock
`drawImage` does. -/
def drawAnchoredImage (img_width img_height : ℤ) (x y : ℚ)
    (width height : Option ℚ) (anchor : String) :
    Except String ((ℤ × ℤ) × List PlacedOp) :=
  match resolveDims img_width img_height width height with
  | .error e => .error e
  | .ok (w, h) =>
    match pyLast anchor with
    | .error e => .error e
    | .ok last =>
      let x_offset : ℚ := if last = 'w' then 0 else if last = 'e' then w else 1/2 * w
      match pyFirst anchor with
      | .error e => .error e
      | .ok first =>
        let y_offset : ℚ := if first = 's' then 0 else if first = 'n' then h else 1/2 * h
        .ok ((img_width, img_height),
          [PlacedOp.drawImage (x - x_offset) (y - y_offset) w h])

/-- `drawAnchoredString`: `measure text fontSize` abstracts the text height
`_text2Path(text, fontSize=self.fontSize).getBounds()` computation; the
vertical offset comes from `anchor[0]`, the drawing routine from `anchor[-1]`. -/
def drawAnchoredString (measure : String → ℚ → ℚ) (fontSize x y : ℚ)
    (text : String) (anchor : String) : Except String (List PlacedOp) :=
  let text_height := measure text fontSize
  match pyFirst anchor with
  | .error e => .error e
  | .ok first =>
    let y_offset : ℚ :=
      if first = 's' then 0 else if first = 'n' then text_height
      else 1/2 * text_height
    match pyLast anchor with
    | .error e => .error e
    | .ok last =>
      if last = 'w' then .ok [PlacedOp.drawString x (y - y_offset) text]
      else if last = 'e' then .ok [PlacedOp.drawRightString x (y - y_offset) text]
      else .ok [PlacedOp.drawCentredString x (y - y_offset) text]

/-- The extension's own canvas state: the shadow font size. -/
structure CanvasState : Type where
  fontSize : ℚ
  deriving DecidableEq

/-- `__init__`: the shadow font size starts at 12 (Helvetica 12 default). -/
def initCanvas : CanvasState := ⟨12⟩

/-- `setFont`: delegates to the stock canvas and records the size. -/
def setFont (s : CanvasState) (_psfontname : String) (size : ℚ) : CanvasState :=
  { s with fontSize := size }

/-- `setFontSize`: records the size only when one is actually supplied. -/
def setFontSize (s : CanvasState) (size : Option ℚ) : CanvasState :=
  match size with
  | none => s
  | some sz => { s with fontSize := sz }

/-- `drawAnchoredString` as invoked on a canvas state: it measures the text
at the current shadow font size. -/
def drawAnchoredStringOn (measure : String → ℚ → ℚ) (s : CanvasState)
    (x y : ℚ) (text : String) (anchor : String) : Except String (List PlacedOp) :=
  drawAnchoredString measure s.fontSize x y text anchor

/-- Font-mutating events of this layer, for stating the shadow invariant. -/
inductive FontEvent : Type
  | setFontEv (psfontname : String) (size : ℚ)
  | setFontSizeEv (size : Option ℚ)

/-- Apply one font event to the canvas state. -/
def applyFontEvent (s : CanvasState) : FontEvent → CanvasState
  | .setFontEv name size => setFont s name size
  | .setFontSizeEv size => setFontSize s size

/-- The last concrete size carried by a list of font events, starting from a
given size. -/
def lastConcreteSize (init : ℚ) : List FontEvent → ℚ
  | [] => init
  | .setFontEv _ size :: rest => lastConcreteSize size rest
  | .setFontSizeEv none :: rest => lastConcreteSize init rest
  | .setFontSizeEv (some size) :: rest => lastConcreteSize size rest

/-- The aspect-scaling rounding as the spec words it: the quotient truncated
toward zero (for comparison against the floor division the source performs). -/
def pyIntQ (q : ℚ) : ℤ := if 0 ≤ q then ⌊q⌋ else ⌈q⌉

/-! ## Shared helper lemmas -/

/-- `int(x)` agrees with the floor on nonnegative inputs. -/
theorem pyInt_of_nonneg {x : ℝ} (h : 0 ≤ x) : pyInt x = ⌊x⌋ := by
  simp [pyInt, h]

/-- A list of odd integer parity, cast to the reals, is never zero. -/
theorem cast_mul_two_sub_one_ne_zero (n : ℤ) : ((n * 2 - 1 : ℤ) : ℝ) ≠ 0 :=
  Int.cast_ne_zero.mpr (by omega)

/-- Flattening singleton blocks is a map. -/
theorem flatMap_singleton_eq_map {α β : Type} (l : List α) (f : α → β) :
    (l.flatMap fun i => [f i]) = l.map f := by
  induction l with
  | nil => rfl
  | cons a l ih => simp [List.flatMap_cons, ih]

/-- A nonempty string has characters. -/
theorem data_ne_nil_of_ne_empty {s : String} (h : s ≠ "") : s.data ≠ [] :=
  fun hd => h (String.ext hd)

/-- `anchor[0]` succeeds on any nonempty string. -/
theorem pyFirst_ok {s : String} (h : s ≠ "") : ∃ c, pyFirst s = .ok c := by
  cases hd : s.data.head? with
  | none => exact absurd (List.head?_eq_none_iff.mp hd) (data_ne_nil_of_ne_empty h)
  | some c => exact ⟨c, by simp [pyFirst, hd]⟩

/-- `anchor[-1]` succeeds on any nonempty string. -/
theorem pyLast_ok {s : String} (h : s ≠ "") : ∃ c, pyLast s = .ok c := by
  cases hd : s.data.getLast? with
  | none => exact absurd (List.getLast?_eq_none_iff.mp hd) (data_ne_nil_of_ne_empty h)
  | some c => exact ⟨c, by simp [pyLast, hd]⟩

/-! ## Claim theorems -/

/-- C1: `arrowPolarRelative` with `radians=False` never reaches `arrowAngle`:
the source line `theta2 = math.radians(theta2)` reads the undefined local
`theta2`, so the call raises `UnboundLocalError` instead of computing the
first polar point and delegating with `dtheta` converted from degrees. -/
theorem arrowPolarRelative_degrees_raises
    (x y r1 theta1 dr dtheta : ℝ) (ahl : Option ℝ) :
    arrowPolarRelative x y r1 theta1 dr dtheta false ahl
      = .error "UnboundLocalError: local variable theta2 referenced before assignment" :=
  rfl

/-- C3: `lineAngle` draws exactly one segment from `(x1, y1)` and returns the
endpoint `(x1 + r·cos θ, y1 + r·sin θ)`, with `θ` taken as given when
`radians=True` and converted from degrees otherwise; a negative `r` follows
the same formula. -/
theorem lineAngle_spec (x1 y1 r theta : ℝ) :
    lineAngle x1 y1 r theta true
      = ((x1 + r * Real.cos theta, y1 + r * Real.sin theta),
         [DrawOp.line x1 y1 (x1 + r * Real.cos theta) (y1 + r * Real.sin theta)])
    ∧ lineAngle x1 y1 r theta false
      = ((x1 + r * Real.cos (degToRad theta), y1 + r * Real.sin (degToRad theta)),
         [DrawOp.line x1 y1 (x1 + r * Real.cos (degToRad theta))
            (y1 + r * Real.sin (degToRad theta))]) := by
  constructor <;> simp [lineAngle, add_comm]

/-- C7: `arrow` draws the shaft and then the two barbs from `(x2, y2)` at
exactly `theta + 150°` and `theta - 150°` relative to the shaft direction
`theta = atan2(y2-y1, x2-x1)`, both of the same length: `arrowheadlength`
when supplied, else `0.083333` times the euclidean shaft length. -/
theorem arrow_barb_symmetry (x1 y1 x2 y2 : ℝ) (arrowheadlength : Option ℝ) :
    arrow x1 y1 x2 y2 arrowheadlength =
      (let ahl := arrowheadlength.getD
        (0.083333 * Real.sqrt ((x2 - x1) * (x2 - x1) + (y2 - y1) * (y2 - y1)))
       let theta := atan2 (y2 - y1) (x2 - x1)
       [DrawOp.saveState, DrawOp.setLineCap 1, DrawOp.line x1 y1 x2 y2,
        DrawOp.line x2 y2 (ahl * Real.cos (theta + degToRad 150) + x2)
          (ahl * Real.sin (theta + degToRad 150) + y2),
        DrawOp.line x2 y2 (ahl * Real.cos (theta - degToRad 150) + x2)
          (ahl * Real.sin (theta - degToRad 150) + y2),
        DrawOp.restoreState]) := by
  simp [arrow, lineAngle]

/-- The endpoint returned by `lineAngleDashed` coincides with `lineAngle`:
the factor `2·n - 1` cancels against the sub-segment width for every integer
dash count. -/
theorem lineAngleDashed_fst (x1 y1 r theta : ℝ) (radians : Bool)
    (num_dashes : Option ℤ) :
    (lineAngleDashed x1 y1 r theta radians num_dashes).1
      = (lineAngle x1 y1 r theta radians).1 := by
  simp only [lineAngleDashed, lineAngle]
  have h := cast_mul_two_sub_one_ne_zero
    (num_dashes.getD (pyInt (|r| / 30) + 2))
  refine Prod.ext ?_ ?_ <;> · push_cast at h ⊢; field_simp; ring

/-- C6: each dashed variant returns the same endpoint as its continuous
counterpart on the same arguments (`lineAngleDashed`/`lineAngle`,
`lineRelativeDashed`/`lineRelative`, `linePolarDashed`/`linePolar`,
`linePolarRelativeDashed`/`linePolarRelative`). -/
theorem dashed_endpoints_agree (x y x1 y1 r r1 r2 theta theta1 theta2 dr
    dtheta dx dy : ℝ) (radians : Bool) (num_dashes : Option ℤ) :
    (lineAngleDashed x1 y1 r theta radians num_dashes).1
      = (lineAngle x1 y1 r theta radians).1
    ∧ (lineRelativeDashed x1 y1 dx dy num_dashes).1
      = (lineRelative x1 y1 dx dy).1
    ∧ (linePolarDashed x y r1 theta1 r2 theta2 radians num_dashes).1
      = (linePolar x y r1 theta1 r2 theta2 radians).1
    ∧ (linePolarRelativeDashed x y r1 theta1 dr dtheta radians num_dashes).1
      = (linePolarRelative x y r1 theta1 dr dtheta radians).1 :=
  ⟨lineAngleDashed_fst x1 y1 r theta radians num_dashes, rfl, rfl,
   lineAngleDashed_fst _ _ dr _ true num_dashes⟩

/-- C4: when `num_dashes` is not supplied, every dashed entry point uses
`⌊L/30⌋ + 2` dashes, with `L` the segment length (`|r|` for
`lineAngleDashed` and its polar-relative delegator, the euclidean length for
`lineDashed` and its delegators), and this default is at least 2 — also for
zero-length segments. -/
theorem default_dash_count (x y x1 y1 x2 y2 r r1 r2 theta theta1 theta2 dr
    dtheta dx dy : ℝ) (radians : Bool) :
    lineAngleDashed x1 y1 r theta radians none
      = lineAngleDashed x1 y1 r theta radians (some (⌊|r| / 30⌋ + 2))
    ∧ (2 : ℤ) ≤ ⌊|r| / 30⌋ + 2
    ∧ lineDashed x1 y1 x2 y2 none
      = lineDashed x1 y1 x2 y2 (some
          (⌊Real.sqrt ((x2 - x1) * (x2 - x1) + (y2 - y1) * (y2 - y1)) / 30⌋ + 2))
    ∧ (2 : ℤ) ≤ ⌊Real.sqrt ((x2 - x1) * (x2 - x1) + (y2 - y1) * (y2 - y1)) / 30⌋ + 2
    ∧ lineRelativeDashed x1 y1 dx dy none
      = lineRelativeDashed x1 y1 dx dy (some
          (⌊Real.sqrt (dx * dx + dy * dy) / 30⌋ + 2))
    ∧ linePolarRelativeDashed x y r1 theta1 dr dtheta radians none
      = linePolarRelativeDashed x y r1 theta1 dr dtheta radians
          (some (⌊|dr| / 30⌋ + 2))
    ∧ (let t1 := if radians then theta1 else degToRad theta1
       let t2 := if radians then theta2 else degToRad theta2
       let px1 := r1 * Real.cos t1 + x
       let py1 := r1 * Real.sin t1 + y
       let px2 := r2 * Real.cos t2 + x
       let py2 := r2 * Real.sin t2 + y
       linePolarDashed x y r1 theta1 r2 theta2 radians none
        = linePolarDashed x y r1 theta1 r2 theta2 radians (some
            (⌊Real.sqrt ((px2 - px1) * (px2 - px1) + (py2 - py1) * (py2 - py1))
               / 30⌋ + 2))) := by
  have habs : (0 : ℝ) ≤ |r| / 30 := by positivity
  have habs2 : (0 : ℝ) ≤ |dr| / 30 := by positivity
  refine ⟨?_, ?_, ?_, ?_, ?_, ?_, ?_⟩
  · simp only [lineAngleDashed, Option.getD_none, Option.getD_some,
      pyInt_of_nonneg habs]
  · have : (0 : ℤ) ≤ ⌊|r| / 30⌋ := Int.floor_nonneg.mpr habs
    omega
  · simp only [lineDashed, Option.getD_none, Option.getD_some,
      pyInt_of_nonneg (by positivity :
        (0:ℝ) ≤ Real.sqrt ((x2 - x1) * (x2 - x1) + (y2 - y1) * (y2 - y1)) / 30)]
  · have : (0 : ℤ) ≤ ⌊Real.sqrt ((x2 - x1) * (x2 - x1) + (y2 - y1) * (y2 - y1))
        / 30⌋ := Int.floor_nonneg.mpr (by positivity)
    omega
  · simp only [lineRelativeDashed, lineDashed, add_sub_cancel_left,
      Option.getD_none, Option.getD_some,
      pyInt_of_nonneg (by positivity : (0:ℝ) ≤ Real.sqrt (dx * dx + dy * dy) / 30)]
  · simp only [linePolarRelativeDashed, lineAngleDashed, Option.getD_none,
      Option.getD_some, pyInt_of_nonneg habs2]
  · simp only [linePolarDashed, lineDashed, Option.getD_none, Option.getD_some]
    rw [pyInt_of_nonneg (by positivity)]

/-- C5: for any dash count `n ≥ 1`, the dashed drawing divides the span into
`2·n - 1` equal sub-segments and issues exactly `n` `lineRelative` calls, the
`i`-th dash running from fraction `2·i/(2·n-1)` to fraction `(2·i+1)/(2·n-1)`
of the span — the even-indexed sub-segments, ending at the full span. -/
theorem dash_subsegments (x1 y1 x2 y2 r theta : ℝ) (n : ℤ) (hn : 1 ≤ n) :
    (lineAngleDashed x1 y1 r theta true (some n)).2
      = (List.range n.toNat).map (fun i : ℕ => DrawOp.line
          (x1 + 2 * (i : ℝ) * (r * Real.cos theta) / (2 * (n : ℝ) - 1))
          (y1 + 2 * (i : ℝ) * (r * Real.sin theta) / (2 * (n : ℝ) - 1))
          (x1 + (2 * (i : ℝ) + 1) * (r * Real.cos theta) / (2 * (n : ℝ) - 1))
          (y1 + (2 * (i : ℝ) + 1) * (r * Real.sin theta) / (2 * (n : ℝ) - 1)))
    ∧ (lineAngleDashed x1 y1 r theta true (some n)).2.length = n.toNat
    ∧ lineDashed x1 y1 x2 y2 (some n)
      = (List.range n.toNat).map (fun i : ℕ => DrawOp.line
          (x1 + 2 * (i : ℝ) * (x2 - x1) / (2 * (n : ℝ) - 1))
          (y1 + 2 * (i : ℝ) * (y2 - y1) / (2 * (n : ℝ) - 1))
          (x1 + (2 * (i : ℝ) + 1) * (x2 - x1) / (2 * (n : ℝ) - 1))
          (y1 + (2 * (i : ℝ) + 1) * (y2 - y1) / (2 * (n : ℝ) - 1)))
    ∧ (lineDashed x1 y1 x2 y2 (some n)).length = n.toNat := by
  have key : ∀ bx by_ : ℝ, (List.range n.toNat).map (fun i : ℕ => DrawOp.line
          (2 * (i : ℝ) * (bx / (2 * (n : ℝ) - 1)) + x1)
          (2 * (i : ℝ) * (by_ / (2 * (n : ℝ) - 1)) + y1)
          (2 * (i : ℝ) * (bx / (2 * (n : ℝ) - 1)) + x1 + bx / (2 * (n : ℝ) - 1))
          (2 * (i : ℝ) * (by_ / (2 * (n : ℝ) - 1)) + y1 + by_ / (2 * (n : ℝ) - 1)))
      = (List.range n.toNat).map (fun i : ℕ => DrawOp.line
          (x1 + 2 * (i : ℝ) * bx / (2 * (n : ℝ) - 1))
          (y1 + 2 * (i : ℝ) * by_ / (2 * (n : ℝ) - 1))
          (x1 + (2 * (i : ℝ) + 1) * bx / (2 * (n : ℝ) - 1))
          (y1 + (2 * (i : ℝ) + 1) * by_ / (2 * (n : ℝ) - 1))) := by
    intro bx by_
    refine List.map_congr_left fun i _ => ?_
    have e1 : 2 * (i : ℝ) * (bx / (2 * (n : ℝ) - 1)) + x1
        = x1 + 2 * (i : ℝ) * bx / (2 * (n : ℝ) - 1) := by ring
    have e2 : 2 * (i : ℝ) * (by_ / (2 * (n : ℝ) - 1)) + y1
        = y1 + 2 * (i : ℝ) * by_ / (2 * (n : ℝ) - 1) := by ring
    have e3 : 2 * (i : ℝ) * (bx / (2 * (n : ℝ) - 1)) + x1 + bx / (2 * (n : ℝ) - 1)
        = x1 + (2 * (i : ℝ) + 1) * bx / (2 * (n : ℝ) - 1) := by ring
    have e4 : 2 * (i : ℝ) * (by_ / (2 * (n : ℝ) - 1)) + y1 + by_ / (2 * (n : ℝ) - 1)
        = y1 + (2 * (i : ℝ) + 1) * by_ / (2 * (n : ℝ) - 1) := by ring
    rw [e3, e4, e1, e2]
  have cast_eq : ((n * 2 - 1 : ℤ) : ℝ) = 2 * (n : ℝ) - 1 := by push_cast; ring
  have cos_comm : ∀ c : ℝ, r / (2 * (n : ℝ) - 1) * c = r * c / (2 * (n : ℝ) - 1) := by
    intro c; ring
  refine ⟨?_, ?_, ?_, ?_⟩
  · simp only [lineAngleDashed, lineRelative, Option.getD_some, if_true,
      flatMap_singleton_eq_map, cast_eq, cos_comm]
    exact key (r * Real.cos theta) (r * Real.sin theta)
  · simp only [lineAngleDashed, lineRelative, Option.getD_some,
      flatMap_singleton_eq_map, List.length_map, List.length_range]
  · simp only [lineDashed, lineRelative, Option.getD_some,
      flatMap_singleton_eq_map, cast_eq]
    exact key (x2 - x1) (y2 - y1)
  · simp only [lineDashed, lineRelative, Option.getD_some,
      flatMap_singleton_eq_map, List.length_map, List.length_range]

/-- C5 witness: the sub-segment structure at the concrete input
`(x1, y1, r, theta, x2, y2) = (0, 0, 1, 0, 30, 40)` with `n = 2`. -/
theorem dash_subsegments_witness :
    (1 : ℤ) ≤ 2
    ∧ ((lineAngleDashed 0 0 1 0 true (some 2)).2
        = (List.range (2 : ℤ).toNat).map (fun i => DrawOp.line
            (0 + 2 * i * (1 * Real.cos 0) / (2 * ((2 : ℤ) : ℝ) - 1))
            (0 + 2 * i * (1 * Real.sin 0) / (2 * ((2 : ℤ) : ℝ) - 1))
            (0 + (2 * i + 1) * (1 * Real.cos 0) / (2 * ((2 : ℤ) : ℝ) - 1))
            (0 + (2 * i + 1) * (1 * Real.sin 0) / (2 * ((2 : ℤ) : ℝ) - 1)))
      ∧ (lineAngleDashed 0 0 1 0 true (some 2)).2.length = (2 : ℤ).toNat
      ∧ lineDashed 0 0 30 40 (some 2)
        = (List.range (2 : ℤ).toNat).map (fun i => DrawOp.line
            (0 + 2 * i * (30 - 0) / (2 * ((2 : ℤ) : ℝ) - 1))
            (0 + 2 * i * (40 - 0) / (2 * ((2 : ℤ) : ℝ) - 1))
            (0 + (2 * i + 1) * (30 - 0) / (2 * ((2 : ℤ) : ℝ) - 1))
            (0 + (2 * i + 1) * (40 - 0) / (2 * ((2 : ℤ) : ℝ) - 1)))
      ∧ (lineDashed 0 0 30 40 (some 2)).length = (2 : ℤ).toNat) :=
  ⟨by decide, dash_subsegments 0 0 30 40 1 0 2 (by decide)⟩

/-- `drawAnchoredImage` with both dimensions supplied, in terms of the anchor
characters. -/
theorem drawAnchoredImage_chars (iw ih : ℤ) (x y w h : ℚ) (anchor : String)
    (c1 c2 : Char) (h1 : pyFirst anchor = .ok c1) (h2 : pyLast anchor = .ok c2) :
    drawAnchoredImage iw ih x y (some w) (some h) anchor
      = .ok ((iw, ih), [PlacedOp.drawImage
          (x - (if c2 = 'w' then 0 else if c2 = 'e' then w else 1/2 * w))
          (y - (if c1 = 's' then 0 else if c1 = 'n' then h else 1/2 * h))
          w h]) := by
  simp [drawAnchoredImage, resolveDims, h1, h2]

/-- C8: the anchor offset law of `drawAnchoredImage` for all nine anchor
tokens: the drawn origin is `(x - x_offset, y - y_offset)` with `x_offset`
`0`/`width`/`width/2` for last character `w`/`e`/other and `y_offset`
`0`/`height`/`height/2` for first character `s`/`n`/other. -/
theorem drawAnchoredImage_anchor_law (iw ih : ℤ) (x y w h : ℚ) :
    drawAnchoredImage iw ih x y (some w) (some h) "nw"
      = .ok ((iw, ih), [PlacedOp.drawImage x (y - h) w h])
    ∧ drawAnchoredImage iw ih x y (some w) (some h) "n"
      = .ok ((iw, ih), [PlacedOp.drawImage (x - 1/2 * w) (y - h) w h])
    ∧ drawAnchoredImage iw ih x y (some w) (some h) "ne"
      = .ok ((iw, ih), [PlacedOp.drawImage (x - w) (y - h) w h])
    ∧ drawAnchoredImage iw ih x y (some w) (some h) "w"
      = .ok ((iw, ih), [PlacedOp.drawImage x (y - 1/2 * h) w h])
    ∧ drawAnchoredImage iw ih x y (some w) (some h) "c"
      = .ok ((iw, ih), [PlacedOp.drawImage (x - 1/2 * w) (y - 1/2 * h) w h])
    ∧ drawAnchoredImage iw ih x y (some w) (some h) "e"
      = .ok ((iw, ih), [PlacedOp.drawImage (x - w) (y - 1/2 * h) w h])
    ∧ drawAnchoredImage iw ih x y (some w) (some h) "sw"
      = .ok ((iw, ih), [PlacedOp.drawImage x y w h])
    ∧ drawAnchoredImage iw ih x y (some w) (some h) "s"
      = .ok ((iw, ih), [PlacedOp.drawImage (x - 1/2 * w) y w h])
    ∧ drawAnchoredImage iw ih x y (some w) (some h) "se"
      = .ok ((iw, ih), [PlacedOp.drawImage (x - w) y w h]) := by
  refine ⟨?_, ?_, ?_, ?_, ?_, ?_, ?_, ?_, ?_⟩
  · rw [drawAnchoredImage_chars iw ih x y w h "nw" 'n' 'w' rfl rfl]; simp
  · rw [drawAnchoredImage_chars iw ih x y w h "n" 'n' 'n' rfl rfl]; simp
  · rw [drawAnchoredImage_chars iw ih x y w h "ne" 'n' 'e' rfl rfl]; simp
  · rw [drawAnchoredImage_chars iw ih x y w h "w" 'w' 'w' rfl rfl]; simp
  · rw [drawAnchoredImage_chars iw ih x y w h "c" 'c' 'c' rfl rfl]; simp
  · rw [drawAnchoredImage_chars iw ih x y w h "e" 'e' 'e' rfl rfl]; simp
  · rw [drawAnchoredImage_chars iw ih x y w h "sw" 's' 'w' rfl rfl]; simp
  · rw [drawAnchoredImage_chars iw ih x y w h "s" 's' 's' rfl rfl]; simp
  · rw [drawAnchoredImage_chars iw ih x y w h "se" 's' 'e' rfl rfl]; simp

/-- C9 counterexample: with intrinsic size 3×2 and only `height = -5`
supplied, the code draws width `⌊-15/2⌋ = -8` (Python floor division), while
truncation toward zero would give `-7`: the derived dimension is floored
toward negative infinity, not truncated toward zero. -/
theorem drawAnchoredImage_scale_not_trunc :
    drawAnchoredImage 3 2 0 0 none (some (-5)) "sw"
      = .ok ((3, 2), [PlacedOp.drawImage 0 0 (-8) (-5)])
    ∧ pyIntQ ((-5) * (3 : ℚ) / 2) = -7
    ∧ ((-8 : ℤ) : ℚ) ≠ ((pyIntQ ((-5) * (3 : ℚ) / 2) : ℤ) : ℚ) := by
  refine ⟨?_, ?_, ?_⟩
  · have h1 : pyFirst "sw" = .ok 's' := rfl
    have h2 : pyLast "sw" = .ok 'w' := rfl
    have hfl : (⌊(-5 : ℚ) * (3 : ℚ) / (2 : ℚ)⌋ : ℤ) = -8 := by norm_num
    simp [drawAnchoredImage, resolveDims, h1, h2, hfl]
    norm_num
  · have : ¬ (0 : ℚ) ≤ (-5) * (3 : ℚ) / 2 := by norm_num
    simp only [pyIntQ, this, if_false]
    norm_num [Int.ceil_neg]
  · have : ¬ (0 : ℚ) ≤ (-5) * (3 : ℚ) / 2 := by norm_num
    simp only [pyIntQ, this, if_false]
    norm_num [Int.ceil_neg]

/-- C9 amended: when exactly one of `width`/`height` is supplied (negative
values included), the missing dimension is `height * intrinsic_width //
intrinsic_height` (resp. `width * intrinsic_height // intrinsic_width`) with
`//` the Python floor division, rounding toward negative infinity. -/
theorem drawAnchoredImage_scale_floor (iw ih : ℤ) (hw : 0 < iw) (hh : 0 < ih)
    (x y wd hg : ℚ) :
    drawAnchoredImage iw ih x y none (some hg) "sw"
      = .ok ((iw, ih), [PlacedOp.drawImage x y ((⌊hg * (iw : ℚ) / (ih : ℚ)⌋ : ℤ) : ℚ) hg])
    ∧ drawAnchoredImage iw ih x y (some wd) none "sw"
      = .ok ((iw, ih), [PlacedOp.drawImage x y wd ((⌊wd * (ih : ℚ) / (iw : ℚ)⌋ : ℤ) : ℚ)]) := by
  have h1 : pyFirst "sw" = .ok 's' := rfl
  have h2 : pyLast "sw" = .ok 'w' := rfl
  constructor <;>
    · simp [drawAnchoredImage, resolveDims, h1, h2, hw.ne.symm, hh.ne.symm]

/-- C9 amended witness: aspect scaling at intrinsic size 3×2 with only
`height = 5` supplied, and with only `width = 7` supplied. -/
theorem drawAnchoredImage_scale_floor_witness :
    (0 : ℤ) < 3 ∧ (0 : ℤ) < 2
    ∧ (drawAnchoredImage 3 2 0 0 none (some 5) "sw"
        = .ok ((3, 2), [PlacedOp.drawImage 0 0 ((⌊(5 : ℚ) * ((3 : ℤ) : ℚ) / ((2 : ℤ) : ℚ)⌋ : ℤ) : ℚ) 5])
      ∧ drawAnchoredImage 3 2 0 0 (some 7) none "sw"
        = .ok ((3, 2), [PlacedOp.drawImage 0 0 7 ((⌊(7 : ℚ) * ((2 : ℤ) : ℚ) / ((3 : ℤ) : ℚ)⌋ : ℤ) : ℚ)])) :=
  ⟨by norm_num, by norm_num,
   drawAnchoredImage_scale_floor 3 2 (by norm_num) (by norm_num) 0 0 7 5⟩

/-- `drawAnchoredString` in terms of the anchor characters. -/
theorem drawAnchoredString_chars (measure : String → ℚ → ℚ) (fs x y : ℚ)
    (text anchor : String) (c1 c2 : Char)
    (h1 : pyFirst anchor = .ok c1) (h2 : pyLast anchor = .ok c2) :
    drawAnchoredString measure fs x y text anchor
      = (let yo : ℚ := if c1 = 's' then 0 else if c1 = 'n' then measure text fs
           else 1/2 * measure text fs
         if c2 = 'w' then .ok [PlacedOp.drawString x (y - yo) text]
         else if c2 = 'e' then .ok [PlacedOp.drawRightString x (y - yo) text]
         else .ok [PlacedOp.drawCentredString x (y - yo) text]) := by
  simp [drawAnchoredString, h1, h2]

/-- C2 counterexample: the claim extends the permissive center/middle default
to the empty anchor string, but on `anchor = ""` both `drawAnchoredImage` and
`drawAnchoredString` raise `IndexError` (Python `""[-1]` / `""[0]`). -/
theorem anchored_empty_anchor_raises :
    drawAnchoredImage 4 3 0 0 none none "" = .error "IndexError"
    ∧ drawAnchoredString (fun _ _ => 10) 12 0 0 "hi" "" = .error "IndexError" :=
  ⟨rfl, rfl⟩

/-- C2 amended: for every NONEMPTY anchor string, `drawAnchoredImage` and
`drawAnchoredString` raise no validation error, and the unmatched axis falls
back to center/middle: horizontal offset `width/2` (and a centred string
draw) unless the last character is `w` or `e`, vertical offset `height/2`
unless the first character is `s` or `n`.  The empty string instead raises
`IndexError`. -/
theorem anchored_malformed_anchor_center (anchor : String) (hne : anchor ≠ "")
    (iw ih : ℤ) (x y w hgt fs : ℚ) (measure : String → ℚ → ℚ) (text : String) :
    ∃ xo yo yos : ℚ,
      drawAnchoredImage iw ih x y (some w) (some hgt) anchor
        = .ok ((iw, ih), [PlacedOp.drawImage (x - xo) (y - yo) w hgt])
      ∧ (pyLast anchor ≠ .ok 'w' → pyLast anchor ≠ .ok 'e' → xo = 1/2 * w)
      ∧ (pyFirst anchor ≠ .ok 's' → pyFirst anchor ≠ .ok 'n' → yo = 1/2 * hgt)
      ∧ (∃ ops, drawAnchoredString measure fs x y text anchor = .ok ops)
      ∧ (pyFirst anchor ≠ .ok 's' → pyFirst anchor ≠ .ok 'n' →
          yos = 1/2 * measure text fs)
      ∧ (pyLast anchor ≠ .ok 'w' → pyLast anchor ≠ .ok 'e' →
          drawAnchoredString measure fs x y text anchor
            = .ok [PlacedOp.drawCentredString x (y - yos) text]) := by
  obtain ⟨c1, hc1⟩ := pyFirst_ok hne
  obtain ⟨c2, hc2⟩ := pyLast_ok hne
  refine ⟨if c2 = 'w' then 0 else if c2 = 'e' then w else 1/2 * w,
          if c1 = 's' then 0 else if c1 = 'n' then hgt else 1/2 * hgt,
          if c1 = 's' then 0 else if c1 = 'n' then measure text fs
            else 1/2 * measure text fs,
          ?_, ?_, ?_, ?_, ?_, ?_⟩
  · exact drawAnchoredImage_chars iw ih x y w hgt anchor c1 c2 hc1 hc2
  · intro hw he
    have hcw : c2 ≠ 'w' := fun hh => hw (hc2.trans (by rw [hh]))
    have hce : c2 ≠ 'e' := fun hh => he (hc2.trans (by rw [hh]))
    rw [if_neg hcw, if_neg hce]
  · intro hs hn
    have hcs : c1 ≠ 's' := fun hh => hs (hc1.trans (by rw [hh]))
    have hcn : c1 ≠ 'n' := fun hh => hn (hc1.trans (by rw [hh]))
    rw [if_neg hcs, if_neg hcn]
  · rw [drawAnchoredString_chars measure fs x y text anchor c1 c2 hc1 hc2]
    dsimp only
    split
    · exact ⟨_, rfl⟩
    · split
      · exact ⟨_, rfl⟩
      · exact ⟨_, rfl⟩
  · intro hs hn
    have hcs : c1 ≠ 's' := fun hh => hs (hc1.trans (by rw [hh]))
    have hcn : c1 ≠ 'n' := fun hh => hn (hc1.trans (by rw [hh]))
    rw [if_neg hcs, if_neg hcn]
  · intro hw he
    have hcw : c2 ≠ 'w' := fun hh => hw (hc2.trans (by rw [hh]))
    have hce : c2 ≠ 'e' := fun hh => he (hc2.trans (by rw [hh]))
    rw [drawAnchoredString_chars measure fs x y text anchor c1 c2 hc1 hc2]
    simp [hcw, hce]

/-- C2 amended witness: the unmatched single-character anchor `"q"` at a
concrete drawing call. -/
theorem anchored_malformed_anchor_center_witness :
    ("q" : String) ≠ ""
    ∧ (∃ xo yo yos : ℚ,
      drawAnchoredImage 4 3 0 0 (some 8) (some 6) "q"
        = .ok ((4, 3), [PlacedOp.drawImage (0 - xo) (0 - yo) 8 6])
      ∧ (pyLast "q" ≠ .ok 'w' → pyLast "q" ≠ .ok 'e' → xo = 1/2 * 8)
      ∧ (pyFirst "q" ≠ .ok 's' → pyFirst "q" ≠ .ok 'n' → yo = 1/2 * 6)
      ∧ (∃ ops, drawAnchoredString (fun _ _ => 10) 12 0 0 "hi" "q" = .ok ops)
      ∧ (pyFirst "q" ≠ .ok 's' → pyFirst "q" ≠ .ok 'n' →
          yos = 1/2 * (fun _ _ => (10 : ℚ)) "hi" (12 : ℚ))
      ∧ (pyLast "q" ≠ .ok 'w' → pyLast "q" ≠ .ok 'e' →
          drawAnchoredString (fun _ _ => 10) 12 0 0 "hi" "q"
            = .ok [PlacedOp.drawCentredString 0 (0 - yos) "hi"])) :=
  ⟨by decide,
   anchored_malformed_anchor_center "q" (by decide) 4 3 0 0 8 6 12
     (fun _ _ => 10) "hi"⟩

/-- Folding font events tracks the last concrete size, from any start. -/
theorem foldl_fontSize (evs : List FontEvent) (s : CanvasState) :
    (evs.foldl applyFontEvent s).fontSize = lastConcreteSize s.fontSize evs := by
  induction evs generalizing s with
  | nil => rfl
  | cons e rest ih =>
    cases e with
    | setFontEv name sz => simp [applyFontEvent, setFont, lastConcreteSize, ih]
    | setFontSizeEv o =>
      cases o <;> simp [applyFontEvent, setFontSize, lastConcreteSize, ih]

/-- C10: the shadow font size is 12 after construction and afterwards always
equals the last concrete size passed through this layer's `setFont` or
`setFontSize`; `setFontSize` with no argument changes nothing, and after
`setFontSize(18)` the next `drawAnchoredString` measures the text at 18. -/
theorem fontSize_shadow (measure : String → ℚ → ℚ) (s : CanvasState)
    (name : String) (sz x y : ℚ) (text anchor : String) (evs : List FontEvent) :
    initCanvas.fontSize = 12
    ∧ (setFont s name sz).fontSize = sz
    ∧ (setFontSize s (some sz)).fontSize = sz
    ∧ setFontSize s none = s
    ∧ drawAnchoredStringOn measure (setFontSize s (some 18)) x y text anchor
        = drawAnchoredString measure 18 x y text anchor
    ∧ (evs.foldl applyFontEvent initCanvas).fontSize = lastConcreteSize 12 evs :=
  ⟨rfl, rfl, rfl, rfl, rfl, foldl_fontSize evs initCanvas⟩

end RLCanvas
